import Mathlib

set_option maxRecDepth 8000

/-!
# Verification of the Israel Tennis Centers availability pipeline

A shallow embedding, in Lean 4, of the core of the `israel-tennis-centers`
repository: the HTML fragment parser (`public/parser.js`, duplicated inside the
Cloudflare worker), the client-side time-slot filter (`public/api.js`), the
edge-gateway origin/path routing, and the two `/api/search-courts` handlers of
the worker (the legacy batch variant `handleBatchCourtSearch` and the streaming
variant `handleStreamingCourtSearch`).

JavaScript strings are modelled as `List Char` (sequences of Unicode code
points); machine floats are avoided by keeping the raw matched text of the
`duration` field (no claim inspects its numeric value); JavaScript exceptions
are modelled with `Except String`; the asynchronous per-slot upstream probes of
a batch are modelled by a deterministic oracle `String → ProbeOutcome` (within
one request every probe of a given time slot carries the same form data, so the
outcome is a function of the slot).
-/

namespace ITC

/-- JavaScript `\d` character class: exactly the ASCII digits. -/
def isDigitB (c : Char) : Bool := '0' ≤ c && c ≤ '9'

/-- JavaScript `\s` character class (WhiteSpace and LineTerminator of
ECMA-262), by code point. -/
def jsWhitespace (c : Char) : Bool :=
  let n := c.toNat
  n = 0x20 || n = 0x09 || n = 0x0A || n = 0x0D || n = 0x0B || n = 0x0C ||
  n = 0xA0 || n = 0xFEFF || n = 0x1680 || (0x2000 <= n && n <= 0x200A) ||
  n = 0x2028 || n = 0x2029 || n = 0x202F || n = 0x205F || n = 0x3000

/-- `hay.includes(needle)`: substring containment test of JavaScript strings. -/
def hasSub (hay needle : List Char) : Bool :=
  match hay with
  | [] => needle.isEmpty
  | _ :: t => needle.isPrefixOf hay || hasSub t needle

/-- Split `hay` around the first occurrence of `needle`: returns the part
before the occurrence and the part after it, or `none` when `needle` does not
occur.  This is the primitive behind the lazy-then-literal regex fragments of
the parser. -/
def splitAtSub (hay needle : List Char) : Option (List Char × List Char) :=
  match hay with
  | [] => if needle.isEmpty then some ([], []) else none
  | c :: t =>
    if needle.isPrefixOf (c :: t) then some ([], (c :: t).drop needle.length)
    else (splitAtSub t needle).map (fun p => (c :: p.1, p.2))

/-- JavaScript `s.replace(/pat/g, rep)` for a literal, non-empty pattern:
leftmost, non-overlapping, the replacement text is not rescanned.  The loop is
written with explicit fuel (structural recursion, so the kernel can evaluate
it); every step consumes at least one input character, so `fuel = input
length` never runs out. -/
def replaceAllSubF (pat rep : List Char) : Nat → List Char → List Char
  | _, [] => []
  | 0, l => l
  | fuel + 1, c :: t =>
    if pat.isPrefixOf (c :: t) && !pat.isEmpty then
      rep ++ replaceAllSubF pat rep fuel ((c :: t).drop pat.length)
    else
      c :: replaceAllSubF pat rep fuel t

def replaceAllSub (pat rep l : List Char) : List Char :=
  replaceAllSubF pat rep l.length l

/-- First-seen de-duplication, as performed by iterating a JavaScript `Set`
(or by the `if (!times.includes(t)) times.push(t)` idiom). -/
def dedupFirstAux [BEq α] (seen : List α) : List α → List α
  | [] => []
  | x :: t => if seen.contains x then dedupFirstAux seen t
              else x :: dedupFirstAux (x :: seen) t

def dedupFirst [BEq α] (l : List α) : List α := dedupFirstAux [] l

/-- `array.sort((a, b) => a - b)` on natural numbers: ascending numeric sort. -/
def sortAsc (l : List Nat) : List Nat := List.insertionSort (· ≤ ·) l

/-! ## HTML fragment parser (`public/parser.js`) -/

/-- Opening literal of the jQuery-wrapper pattern
`/jQuery\('#step-2'\)\.html\('([\s\S]*?)'\);/`. -/
def jqOpen : List Char := "jQuery('#step-2').html('".data

/-- Closing literal of the jQuery-wrapper pattern. -/
def jqClose : List Char := "');".data

/-- The three chained unescaping replaces of `extractHtmlFromResponse`:
`.replace(/\\n/g, "").replace(/\\"/g, '"').replace(/\\\//g, "/")`. -/
def unescapePayload (payload : List Char) : List Char :=
  replaceAllSub ['\\', '/'] ['/']
    (replaceAllSub ['\\', '"'] ['"']
      (replaceAllSub ['\\', 'n'] [] payload))

/-- `extractHtmlFromResponse(response)`: extract the escaped HTML payload from
the script-injection snippet; absent pattern yields the empty string.
The regex starts with the literal `jqOpen` and captures lazily up to the first
`');`; if the first occurrence of the opening literal has no closing literal
after it, no later occurrence can succeed either (any closer after a later
opener also lies after the first opener), so the whole match fails. -/
def extractHtmlFromResponse (response : List Char) : List Char :=
  match splitAtSub response jqOpen with
  | none => []
  | some (_, rest) =>
    match splitAtSub rest jqClose with
    | none => []
    | some (payload, _) => unescapePayload payload

/-- `isNoCourtsAvailable(html)`: the success-class marker is tested first and
wins; otherwise any of the three failure markers classifies as no-courts. -/
def isNoCourtsAvailable (html : List Char) : Bool :=
  if hasSub html "alert-success".data then false
  else hasSub html "מועדים אחרים".data || hasSub html "alert-danger".data ||
       hasSub html "נסה מועד אחר".data

/-- One attempt of the `/<h3>(\d{2}:\d{2})-\d{2}:\d{2}<\/h3>/g` pattern at the
current position: on success returns the captured start time.  A successful
match always spans exactly 20 characters. -/
def headingAt (l : List Char) : Option (List Char) :=
  match l with
  | '<' :: 'h' :: '3' :: '>' :: a :: b :: ':' :: c :: d :: '-' ::
    e :: f :: ':' :: g :: h :: '<' :: '/' :: 'h' :: '3' :: '>' :: _ =>
    if isDigitB a && isDigitB b && isDigitB c && isDigitB d &&
       isDigitB e && isDigitB f && isDigitB g && isDigitB h
    then some [a, b, ':', c, d] else none
  | _ => none

/-- Global scan with the heading pattern: leftmost matches, the scan resumes at
the end of each match (`lastIndex` semantics); the pattern cannot match with
fewer than 20 characters remaining, so on success the tail after the first
consumed character is advanced by the remaining 19. -/
def scanHeadingsF : Nat → List Char → List (List Char)
  | _, [] => []
  | 0, _ :: _ => []
  | fuel + 1, c :: t =>
    match headingAt (c :: t) with
    | some tm => tm :: scanHeadingsF fuel (t.drop 19)
    | none => scanHeadingsF fuel t

def scanHeadings (l : List Char) : List (List Char) := scanHeadingsF l.length l

/-- `parseSuggestedTimes(html)`: start times of the `HH:MM-HH:MM` headings,
de-duplicated, first-seen order. -/
def parseSuggestedTimes (html : List Char) : List String :=
  (dedupFirst (scanHeadings html)).map (fun cs => String.mk cs)

/-! ### `decodeURIComponent` (ECMA-262 Decode with an empty reserved set)

The parser applies `decodeURIComponent` to the matched `end_time` and
`start_time` fields.  That built-in throws `URIError` on malformed input:
a `%` not followed by two hex digits, or hex escapes that do not form a valid
(shortest-form, non-surrogate, in-range) UTF-8 byte sequence. -/

def hexVal (c : Char) : Option Nat :=
  if '0' ≤ c && c ≤ '9' then some (c.toNat - 48)
  else if 'A' ≤ c && c ≤ 'F' then some (c.toNat - 55)
  else if 'a' ≤ c && c ≤ 'f' then some (c.toNat - 87)
  else none

def byteOfHex (h1 h2 : Char) : Option Nat :=
  match hexVal h1, hexVal h2 with
  | some a, some b => some (16 * a + b)
  | _, _ => none

/-- Number of leading 1 bits of an 8-bit value. -/
def leadOnes (b : Nat) : Nat :=
  if b < 128 then 0
  else if b < 192 then 1
  else if b < 224 then 2
  else if b < 240 then 3
  else if b < 248 then 4
  else if b < 252 then 5
  else if b < 254 then 6
  else if b < 255 then 7
  else 8

/-- Read `k` continuation-byte escapes `%hh` (each byte in `0x80..0xBF`). -/
def takeConts : Nat → List Char → Option (List Nat × List Char)
  | 0, l => some ([], l)
  | k + 1, l =>
    match l with
    | '%' :: h1 :: h2 :: rest =>
      match byteOfHex h1 h2 with
      | some b =>
        if 128 ≤ b && b < 192 then
          match takeConts k rest with
          | some (bs, r) => some (b :: bs, r)
          | none => none
        else none
      | none => none
    | _ => none

/-- Shortest-form / surrogate / range validity of the decoded code point, per
the UTF-8 decoding table of ECMA-262 Decode. -/
def validCodepoint (n v : Nat) : Bool :=
  if n = 2 then 128 ≤ v
  else if n = 3 then 2048 ≤ v && !(55296 ≤ v && v ≤ 57343)
  else 65536 ≤ v && v ≤ 1114111

/-- `decodeURIComponent` on a sequence of code points; `none` models a thrown
`URIError`.  Code points above `0xFFFF` are modelled as a single character
(JavaScript would store a surrogate pair).  Fuel-based structural recursion:
each step consumes at least one input character and one unit of fuel. -/
def decodeURICharsF : Nat → List Char → Option (List Char)
  | _, [] => some []
  | 0, _ :: _ => none
  | fuel + 1, '%' :: rest =>
    match rest with
    | h1 :: h2 :: rest2 =>
      match byteOfHex h1 h2 with
      | none => none
      | some b =>
        if b < 128 then
          match decodeURICharsF fuel rest2 with
          | some tl => some (Char.ofNat b :: tl)
          | none => none
        else
          if leadOnes b = 1 || leadOnes b > 4 then none
          else
            match takeConts (leadOnes b - 1) rest2 with
            | none => none
            | some (bs, rest3) =>
              if validCodepoint (leadOnes b)
                  (bs.foldl (fun acc cb => acc * 64 + cb % 64) (b % 2 ^ (7 - leadOnes b))) then
                match decodeURICharsF fuel rest3 with
                | some tl =>
                  some (Char.ofNat
                    (bs.foldl (fun acc cb => acc * 64 + cb % 64) (b % 2 ^ (7 - leadOnes b))) :: tl)
                | none => none
              else none
    | _ => none
  | fuel + 1, c :: rest =>
    match decodeURICharsF fuel rest with
    | some tl => some (c :: tl)
    | none => none

def decodeURIChars (l : List Char) : Option (List Char) := decodeURICharsF l.length l

/-- `.replace(/\+/g, " ")` applied before URI-decoding a time field. -/
def plusToSpace (l : List Char) : List Char :=
  l.map (fun c => if c = '+' then ' ' else c)

/-- URI-decode one matched time field; a `none` from the decoder is the
`URIError` the surrounding JavaScript would throw. -/
def decodeTimeField (l : List Char) : Except String (List Char) :=
  match decodeURIChars (plusToSpace l) with
  | some r => Except.ok r
  | none => Except.error "URI malformed"

/-! ### Court-row scanning

The row pattern of `parseCourtSlots` is
`/מגרש:\s*(\d+)[\s\S]*?court_id=(\d+)&amp;duration=([\d.]+)&amp;end_time=([^&]+)&amp;start_time=([^"&]+)/g`.
Every greedy character-class repetition in it is followed either by a literal
starting with a character outside the class or by the end of the pattern, so
greedy matching needs no backtracking: each capture is the maximal run of its
class at the current position.  The lazy `[\s\S]*?` is resolved by scanning
forward for the first position at which the rest of the pattern matches. -/

/-- Match a literal at the current position and drop it. -/
def dropLit (lit l : List Char) : Option (List Char) :=
  if lit.isPrefixOf l then some (l.drop lit.length) else none

/-- The raw captures of one court row, before numeric parsing and
URI-decoding. -/
structure RawRow where
  num : List Char
  cid : List Char
  dur : List Char
  et : List Char
  st : List Char
deriving DecidableEq, Repr

/-- The part of the row pattern after the lazy gap, anchored at the current
position: `court_id=(\d+)&amp;duration=([\d.]+)&amp;end_time=([^&]+)&amp;start_time=([^"&]+)`. -/
def rowTailAt (l : List Char) : Option ((List Char × List Char × List Char × List Char) × List Char) :=
  match dropLit "court_id=".data l with
  | none => none
  | some l1 =>
    let cid := l1.takeWhile isDigitB
    let l2 := l1.dropWhile isDigitB
    if cid.isEmpty then none else
    match dropLit "&amp;duration=".data l2 with
    | none => none
    | some l3 =>
      let dur := l3.takeWhile (fun c => isDigitB c || c = '.')
      let l4 := l3.dropWhile (fun c => isDigitB c || c = '.')
      if dur.isEmpty then none else
      match dropLit "&amp;end_time=".data l4 with
      | none => none
      | some l5 =>
        let et := l5.takeWhile (fun c => c ≠ '&')
        let l6 := l5.dropWhile (fun c => c ≠ '&')
        if et.isEmpty then none else
        match dropLit "&amp;start_time=".data l6 with
        | none => none
        | some l7 =>
          let st := l7.takeWhile (fun c => c ≠ '"' && c ≠ '&')
          let l8 := l7.dropWhile (fun c => c ≠ '"' && c ≠ '&')
          if st.isEmpty then none else
          some ((cid, dur, et, st), l8)

/-- Resolve the lazy gap `[\s\S]*?`: scan forward for the first position at
which the rest of the row pattern matches. -/
def findRowTail : List Char → Option ((List Char × List Char × List Char × List Char) × List Char)
  | [] => none
  | c :: t =>
    match rowTailAt (c :: t) with
    | some r => some r
    | none => findRowTail t

/-- Try the full row pattern anchored at the current position:
`מגרש:` then `\s*` (maximal whitespace run) then `(\d+)` (maximal non-empty
digit run), then the lazy gap and the tail. -/
def rowAt (l : List Char) : Option (RawRow × List Char) :=
  match dropLit "מגרש:".data l with
  | none => none
  | some l1 =>
    let l2 := l1.dropWhile jsWhitespace
    let num := l2.takeWhile isDigitB
    let l3 := l2.dropWhile isDigitB
    if num.isEmpty then none
    else
      match findRowTail l3 with
      | some ((cid, dur, et, st), rest) => some (⟨num, cid, dur, et, st⟩, rest)
      | none => none

/-- Global scan with the row pattern: try each start position from left to
right; a successful match resumes at the match end (`lastIndex` semantics).
The loop is written with explicit fuel; every iteration consumes at least one
character of the remaining input (a successful row match consumes the `מגרש:`
literal and more), so `fuel = input length` never runs out before the scan
finishes. -/
def scanRowsF (fuel : Nat) (l : List Char) : List RawRow :=
  match fuel with
  | 0 => []
  | fuel + 1 =>
    match l with
    | [] => []
    | c :: t =>
      match rowAt (c :: t) with
      | some (row, rest) => row :: scanRowsF fuel rest
      | none => scanRowsF fuel t

def scanRows (l : List Char) : List RawRow := scanRowsF l.length l

/-! ### Structured results -/

/-- `CourtSlot` as built by `parseCourtSlots`.  The `duration` field keeps the
raw matched `[\d.]+` text (the source applies `parseFloat` to it; no verified
claim inspects its numeric value, and machine floats are not modelled). -/
structure CourtSlot where
  courtNumber : Nat
  courtId : Nat
  duration : String
  endTime : String
  startTime : String
deriving DecidableEq, Repr

/-- `parseInt(s, 10)` on an all-digit capture. -/
def parseDigits (l : List Char) : Nat :=
  l.foldl (fun n c => 10 * n + (c.toNat - 48)) 0

/-- Build one `CourtSlot` from raw captures.  The source evaluates the object
literal fields in order: `endTime`'s `decodeURIComponent` runs before
`startTime`'s, and a `URIError` aborts `parseCourtSlots` at the first bad
field. -/
def buildSlot (row : RawRow) : Except String CourtSlot :=
  match decodeTimeField row.et with
  | Except.error e => Except.error e
  | Except.ok et' =>
    match decodeTimeField row.st with
    | Except.error e => Except.error e
    | Except.ok st' =>
      Except.ok ⟨parseDigits row.num, parseDigits row.cid,
                 String.mk row.dur, String.mk et', String.mk st'⟩

/-- `parseCourtSlots(html)`: all row matches in order, each turned into a
`CourtSlot`; a thrown `URIError` propagates (in the source the loop throws at
the first bad row, leaving later rows unscanned — the resulting exception is
the same). -/
def parseCourtSlots (html : List Char) : Except String (List CourtSlot) :=
  (scanRows html).mapM buildSlot

inductive AvStatus
  | available
  | noCourts
deriving DecidableEq, Repr

/-- The structured result of one availability probe, as produced by
`parseCourtAvailability`.  `suggestedTimes = none` models an absent field
(`undefined` in the source, i.e. the key is omitted from the JSON). -/
structure AvailabilityResult where
  status : AvStatus
  courts : List Nat
  slots : List CourtSlot
  suggestedTimes : Option (List String)
deriving DecidableEq, Repr

/-- `parseCourtAvailability(response)`: unwrap, classify, then either the
no-courts path (with optional suggested times) or the court-slot scan with the
zero-slot downgrade.  An `Except.error` models the `URIError` thrown out of
`parseCourtSlots`. -/
def parseCourtAvailability (response : String) : Except String AvailabilityResult :=
  if isNoCourtsAvailable (extractHtmlFromResponse response.data) then
    Except.ok ⟨AvStatus.noCourts, [], [],
      if (parseSuggestedTimes (extractHtmlFromResponse response.data)).isEmpty then none
      else some (parseSuggestedTimes (extractHtmlFromResponse response.data))⟩
  else
    match parseCourtSlots (extractHtmlFromResponse response.data) with
    | Except.error e => Except.error e
    | Except.ok slots =>
      if slots.isEmpty then
        Except.ok ⟨AvStatus.noCourts, [], [], none⟩
      else
        Except.ok ⟨AvStatus.available,
          sortAsc (dedupFirst (slots.map (fun s => s.courtNumber))), slots, none⟩

/-! ## Client-side time-slot filter (`APIService.parseTimeSlots`, `public/api.js`)

The half-hour suppression loop: a slot ending in `:00` is kept; a slot ending
in `:30` is kept only when the following full hour (`String(parseInt(hours)+1)
.padStart(2,'0') + ':00'`) is not in the parsed slot list; anything else is
dropped. -/

/-- JavaScript `s.endsWith(suf)`. -/
def strEndsWith (s suf : String) : Bool := suf.data.isSuffixOf s.data

/-- `String(n).padStart(2, '0')` for a natural number. -/
def padTwo (n : Nat) : String := if n < 10 then "0" ++ toString n else toString n

/-- `parseInt(s)`: skip leading whitespace, read the maximal leading digit run;
`none` models `NaN`.  (Sign handling is omitted: every call site feeds it the
hour part of a `HH:MM` capture.) -/
def jsParseIntOpt (l : List Char) : Option Nat :=
  let ds := (l.dropWhile jsWhitespace).takeWhile isDigitB
  if ds.isEmpty then none else some (parseDigits ds)

/-- `String(parseInt(hours) + 1).padStart(2, '0') + ':00'` where
`hours = slot.split(':')[0]`; `parseInt` on a digit-free string gives `NaN`,
which stringifies to `"NaN"`. -/
def nextHourOf (slot : String) : String :=
  match jsParseIntOpt (slot.data.takeWhile (fun c => c ≠ ':')) with
  | some h => padTwo (h + 1) ++ ":00"
  | none => "NaN:00"

/-- The keep/drop decision of the filtering loop for one slot. -/
def keepSlot (allSlots : List String) (slot : String) : Bool :=
  if strEndsWith slot ":00" then true
  else if strEndsWith slot ":30" then !(allSlots.contains (nextHourOf slot))
  else false

/-- The half-hour suppression filter: the for-loop with conditional `push`
preserves order, so it is a `filter`. -/
def filterHalfHour (allSlots : List String) : List String :=
  allSlots.filter (keepSlot allSlots)

/-! ## Edge gateway routing (worker `fetch` entry point) -/

/-- Whitelist of pass-through proxy paths. -/
def ALLOWED_PATHS : List String :=
  ["/self_services/login",
   "/self_services/login.js",
   "/self_services/court_invitation",
   "/self_services/set_time_by_unit",
   "/self_services/search_court.js"]

/-- `[env.ALLOWED_ORIGIN, 'https://adielbm.github.io'].filter(Boolean)`:
an unset or empty environment value is dropped. -/
def allowedOriginsOf (envAllowed : Option String) : List String :=
  (match envAllowed with
   | some s => if s.isEmpty then [] else [s]
   | none => []) ++ ["https://adielbm.github.io"]

/-- JavaScript truthiness of the Origin header value: an absent header or an
empty string is falsy. -/
def originTruthy : Option String → Option String
  | some s => if s.isEmpty then none else some s
  | none => none

structure GatewayRequest where
  method : String
  origin : Option String
  path : String

/-- The routing decision of the worker `fetch` handler.  Upstream traffic
happens only after a dispatch decision: `dispatchSearch` runs the court-search
handler and `dispatchProxy` forwards to the target base URL; every other
result is answered directly at the edge. -/
inductive RouteResult
  | corsPreflight
  | forbiddenOrigin
  | dispatchSearch (allowedOrigin : String)
  | missingPath
  | forbiddenPath
  | dispatchProxy (allowedOrigin : String) (path : String)
deriving DecidableEq, Repr

/-- `url.pathname.replace(/^\/proxy/, '')`. -/
def dropProxyPre (path : String) : String :=
  if "/proxy".data.isPrefixOf path.data then String.mk (path.data.drop 6) else path

/-- Whether a routing decision leads to any upstream call. -/
def issuesUpstreamDispatch : RouteResult → Bool
  | RouteResult.dispatchSearch _ => true
  | RouteResult.dispatchProxy _ _ => true
  | _ => false

/-- The `fetch` entry point of the streaming worker, up to the dispatch
decision: OPTIONS preflight short-circuit, Origin allow-set check, exact-path
dispatch of `POST /api/search-courts`, prefix-stripped pass-through with path
allow-list. -/
def routeRequest (envAllowed : Option String) (req : GatewayRequest) : RouteResult :=
  if req.method = "OPTIONS" then RouteResult.corsPreflight
  else
    let allowed := allowedOriginsOf envAllowed
    match originTruthy req.origin with
    | some o =>
      if !(allowed.contains o) then RouteResult.forbiddenOrigin
      else routeDispatch o req
    | none => routeDispatch (allowed.headD "") req
where
  routeDispatch (allowedOrigin : String) (req : GatewayRequest) : RouteResult :=
    if req.path = "/api/search-courts" && req.method = "POST" then
      RouteResult.dispatchSearch allowedOrigin
    else
      let p := dropProxyPre req.path
      if p.isEmpty then RouteResult.missingPath
      else if ALLOWED_PATHS.contains p then RouteResult.dispatchProxy allowedOrigin p
      else RouteResult.forbiddenPath

/-! ## The `/api/search-courts` handlers -/

structure SearchBody where
  unitId : Option String
  date : Option String
  timeSlots : Option (List String)
  sessionId : Option String
  authenticityToken : Option String

/-- JavaScript truthiness of a destructured string field: absent (`undefined`)
or empty-string values are falsy. -/
def truthyStr : Option String → Bool
  | none => false
  | some s => !s.isEmpty

/-- JavaScript truthiness of a destructured array field: an array value is
always truthy — including the empty array; only an absent field is falsy. -/
def truthyArr : Option (List String) → Bool
  | none => false
  | some _ => true

def missingParamsMsg : String :=
  "Missing required parameters: unitId, date, timeSlots, sessionId, authenticityToken"

/-- `!unitId || !date || !timeSlots || !sessionId || !authenticityToken`,
negated. -/
def bodyValid (b : SearchBody) : Bool :=
  truthyStr b.unitId && truthyStr b.date && truthyArr b.timeSlots &&
  truthyStr b.sessionId && truthyStr b.authenticityToken

/-- `` `courts:${unitId}:${date}` `` — the cache key actually computed by both
handlers. -/
def cacheKeyOf (unitId date : String) : String := "courts:" ++ unitId ++ ":" ++ date

/-- `CACHE_TTL`. -/
def CACHE_TTL : Nat := 600

/-- Outcome of one upstream probe (`fetch` of `search_court.js` for one time
slot): a rejected fetch, a non-2xx response, or a 2xx body. -/
inductive ProbeOutcome
  | netError (msg : String)
  | httpError (status : Nat)
  | ok (text : String)

/-- A value of the aggregated results map: either a parsed
`AvailabilityResult` or the `{status:'error', error}` placeholder. -/
inductive SlotValue
  | parsed (r : AvailabilityResult)
  | errorEntry (msg : String)
deriving DecidableEq, Repr

/-- The JSON shape stored in the cache and returned by the handlers:
`{unitId, date, results, cached}`. -/
structure CachedPayload where
  unitId : String
  date : String
  results : List (String × SlotValue)
  cached : Bool
deriving DecidableEq, Repr

/-- Read a key of the results object. -/
def lookupA (m : List (String × SlotValue)) (k : String) : Option SlotValue :=
  match m with
  | [] => none
  | (k', v) :: t => if k' = k then some v else lookupA t k

/-- `results[timeSlot] = v`: assignment to an existing key keeps its insertion
position; a new key is appended. -/
def putAssoc (m : List (String × SlotValue)) (k : String) (v : SlotValue) :
    List (String × SlotValue) :=
  match m with
  | [] => [(k, v)]
  | (k', v') :: t => if k' = k then (k, v) :: t else (k', v') :: putAssoc t k v

/-- Helper of `chunksOf`: `acc` is the current (reversed) group, `c` its
remaining capacity. -/
def chunksGo (k : Nat) : List α → List α → Nat → List (List α)
  | [], acc, _ => [acc.reverse]
  | x :: t, acc, 0 => acc.reverse :: chunksGo k t [x] k
  | x :: t, acc, c + 1 => chunksGo k t (x :: acc) c

/-- `timeSlots.slice(i, i + batchSize)` grouping, chunk size `k + 1`. -/
def chunksOf (k : Nat) : List α → List (List α)
  | [] => []
  | x :: t => chunksGo k t [x] k

/-- The per-slot result of the streaming handler: its `try`/`catch` wraps both
the fetch and the parse, so every failure becomes the error placeholder. -/
def slotValueStreaming (probe : String → ProbeOutcome) (ts : String) : SlotValue :=
  match probe ts with
  | ProbeOutcome.netError m => SlotValue.errorEntry m
  | ProbeOutcome.httpError s => SlotValue.errorEntry ("HTTP " ++ toString s)
  | ProbeOutcome.ok txt =>
    match parseCourtAvailability txt with
    | Except.ok r => SlotValue.parsed r
    | Except.error e => SlotValue.errorEntry e

/-- Accumulate `results[timeSlot] = ...` assignments over the probed slots. -/
def buildResults (probe : String → ProbeOutcome) :
    List String → List (String × SlotValue) → List (String × SlotValue)
  | [], m => m
  | t :: rest, m => buildResults probe rest (putAssoc m t (slotValueStreaming probe t))

/-- One server-sent event of the streaming response. -/
inductive SSEEvent
  | result (timeSlot : String) (data : SlotValue)
  | complete (unitId date : String) (results : List (String × SlotValue))
  | errorEvent (msg : String)
deriving DecidableEq, Repr

/-- What the streaming background task does: the emitted events, the final
aggregated map, and the cache write (key, payload, TTL) when a cache backend
is bound. -/
structure StreamRun where
  events : List SSEEvent
  results : List (String × SlotValue)
  cachePut : Option (String × CachedPayload × Nat)
deriving DecidableEq, Repr

inductive StreamResponse
  | badRequest (error : String)
  | cachedJson (payload : CachedPayload)
  | sse (run : StreamRun)
deriving DecidableEq, Repr

structure StreamOutcome where
  response : StreamResponse
  cacheLookups : List String
  upstreamCalls : List String
deriving DecidableEq, Repr

/-- The orchestration of `handleStreamingCourtSearch` past validation and the
cache check.  Slots are probed in groups of `batchSize = 2`; within a group
`Promise.all` preserves the group's order and the result loop runs in that
order, so the processed sequence is the concatenation of the groups — the
original order. -/
def runStreaming (hasCache : Bool) (probe : String → ProbeOutcome)
    (unitId date : String) (timeSlots : List String) : StreamRun :=
  let order := (chunksOf 1 timeSlots).flatten
  let results := buildResults probe order []
  let events :=
    order.map (fun t => SSEEvent.result t (slotValueStreaming probe t)) ++
    [SSEEvent.complete unitId date results]
  let put :=
    if hasCache then some (cacheKeyOf unitId date, ⟨unitId, date, results, false⟩, CACHE_TTL)
    else none
  ⟨events, results, put⟩

/-- `handleStreamingCourtSearch(request, env, allowedOrigin)` as a function of
the (possibly absent) cache backend, the per-slot probe oracle and the parsed
request body. -/
def handleStreamingCourtSearch (cacheCfg : Option (String → Option CachedPayload))
    (probe : String → ProbeOutcome) (body : SearchBody) : StreamOutcome :=
  if !(bodyValid body) then
    ⟨StreamResponse.badRequest missingParamsMsg, [], []⟩
  else
    let unitId := body.unitId.getD ""
    let date := body.date.getD ""
    let timeSlots := body.timeSlots.getD []
    let key := cacheKeyOf unitId date
    match cacheCfg with
    | some cache =>
      match cache key with
      | some payload =>
        ⟨StreamResponse.cachedJson { payload with cached := true }, [key], []⟩
      | none =>
        let run := runStreaming true probe unitId date timeSlots
        ⟨StreamResponse.sse run, [key], (chunksOf 1 timeSlots).flatten⟩
    | none =>
      let run := runStreaming false probe unitId date timeSlots
      ⟨StreamResponse.sse run, [], (chunksOf 1 timeSlots).flatten⟩

/-! ### The legacy batch handler (`handleBatchCourtSearch`)

Its per-slot callback has no `try`/`catch`: a rejected fetch (network error)
or a `URIError` from parsing rejects the whole `Promise.all`, lands in the
outer `catch`, and produces a 500 response; only a non-2xx HTTP status is
recorded per slot. -/

def slotStepBatch (probe : String → ProbeOutcome) (ts : String) : Except String SlotValue :=
  match probe ts with
  | ProbeOutcome.netError m => Except.error m
  | ProbeOutcome.httpError s => Except.ok (SlotValue.errorEntry ("HTTP " ++ toString s))
  | ProbeOutcome.ok txt =>
    match parseCourtAvailability txt with
    | Except.ok r => Except.ok (SlotValue.parsed r)
    | Except.error e => Except.error e

/-- Run the groups of `batchSize = 3` sequentially; the first rejection inside
a group rejects the whole run. -/
def runBatchesLegacy (probe : String → ProbeOutcome) :
    List (List String) → List (String × SlotValue) → Except String (List (String × SlotValue))
  | [], m => Except.ok m
  | batch :: rest, m =>
    match batch.mapM (fun t => (slotStepBatch probe t).map (fun v => (t, v))) with
    | Except.error e => Except.error e
    | Except.ok pairs =>
      runBatchesLegacy probe rest (pairs.foldl (fun acc p => putAssoc acc p.1 p.2) m)

/-- Probes issued by the legacy run: every group before and including the
failing one is fully fetched (all fetches of a group start before
`Promise.all` settles); groups after a rejection never start. -/
def legacyCalls (probe : String → ProbeOutcome) : List (List String) → List String
  | [] => []
  | batch :: rest =>
    if batch.all (fun t =>
        match slotStepBatch probe t with
        | Except.ok _ => true
        | Except.error _ => false) then
      batch ++ legacyCalls probe rest
    else batch

inductive BatchResponse
  | badRequest (error : String)
  | jsonOk (payload : CachedPayload)
  | serverError (error : String)
deriving DecidableEq, Repr

structure BatchOutcome where
  response : BatchResponse
  cacheLookups : List String
  upstreamCalls : List String
  cachePut : Option (String × CachedPayload × Nat)
deriving DecidableEq, Repr

def runBatchLegacy (hasCache : Bool) (probe : String → ProbeOutcome)
    (unitId date : String) (timeSlots : List String)
    (lookups : List String) : BatchOutcome :=
  let batches := chunksOf 2 timeSlots
  match runBatchesLegacy probe batches [] with
  | Except.error e =>
    ⟨BatchResponse.serverError ("Batch search error: " ++ e), lookups,
     legacyCalls probe batches, none⟩
  | Except.ok results =>
    let payload : CachedPayload := ⟨unitId, date, results, false⟩
    ⟨BatchResponse.jsonOk payload, lookups, legacyCalls probe batches,
     if hasCache then some (cacheKeyOf unitId date, payload, CACHE_TTL) else none⟩

/-- `handleBatchCourtSearch(request, env, allowedOrigin)` of the legacy
worker. -/
def handleBatchCourtSearch (cacheCfg : Option (String → Option CachedPayload))
    (probe : String → ProbeOutcome) (body : SearchBody) : BatchOutcome :=
  if !(bodyValid body) then
    ⟨BatchResponse.badRequest missingParamsMsg, [], [], none⟩
  else
    let unitId := body.unitId.getD ""
    let date := body.date.getD ""
    let timeSlots := body.timeSlots.getD []
    let key := cacheKeyOf unitId date
    match cacheCfg with
    | some cache =>
      match cache key with
      | some payload =>
        ⟨BatchResponse.jsonOk { payload with cached := true }, [key], [], none⟩
      | none => runBatchLegacy true probe unitId date timeSlots [key]
    | none => runBatchLegacy false probe unitId date timeSlots []

/-! ## Supporting lemmas -/

theorem mem_dedupFirstAux [BEq α] [LawfulBEq α] (l : List α) :
    ∀ (seen : List α) (x : α), x ∈ dedupFirstAux seen l ↔ x ∈ l ∧ x ∉ seen := by
  induction l with
  | nil => intro seen x; simp [dedupFirstAux]
  | cons y t ih =>
    intro seen x
    simp only [dedupFirstAux]
    by_cases hy : seen.contains y = true
    · rw [if_pos hy, ih]
      have hymem : y ∈ seen := by
        have := List.elem_iff.mp hy
        exact this
      simp only [List.mem_cons]
      constructor
      · rintro ⟨hm, hn⟩; exact ⟨Or.inr hm, hn⟩
      · rintro ⟨hm | hm, hn⟩
        · exact absurd (hm ▸ hymem) hn
        · exact ⟨hm, hn⟩
    · rw [if_neg hy]
      simp only [List.mem_cons, ih]
      by_cases hxy : x = y
      · subst hxy
        have hxs : x ∉ seen := fun hc => hy (List.elem_iff.mpr hc)
        simp [hxs]
      · simp only [List.mem_cons, hxy, false_or]

theorem nodup_dedupFirstAux [BEq α] [LawfulBEq α] (l : List α) :
    ∀ seen : List α, (dedupFirstAux seen l).Nodup := by
  induction l with
  | nil => intro seen; simp [dedupFirstAux]
  | cons y t ih =>
    intro seen
    simp only [dedupFirstAux]
    split
    · exact ih seen
    · rw [List.nodup_cons]
      refine ⟨fun hc => ?_, ih (y :: seen)⟩
      exact ((mem_dedupFirstAux t (y :: seen) y).mp hc).2 (List.mem_cons_self y seen)

theorem mem_dedupFirst [BEq α] [LawfulBEq α] (l : List α) (x : α) :
    x ∈ dedupFirst l ↔ x ∈ l := by
  unfold dedupFirst
  rw [mem_dedupFirstAux]
  simp

theorem nodup_dedupFirst [BEq α] [LawfulBEq α] (l : List α) : (dedupFirst l).Nodup :=
  nodup_dedupFirstAux l []

theorem sorted_sortAsc (l : List Nat) : List.Sorted (· ≤ ·) (sortAsc l) :=
  List.sorted_insertionSort _ l

theorem mem_sortAsc (l : List Nat) (n : Nat) : n ∈ sortAsc l ↔ n ∈ l :=
  (List.perm_insertionSort _ l).mem_iff

theorem nodup_sortAsc (l : List Nat) (h : l.Nodup) : (sortAsc l).Nodup :=
  (List.perm_insertionSort _ l).nodup_iff.mpr h

/-! ## Claims about the parser -/

/-- **C5.** For every unwrapped HTML string containing the success-class
marker `alert-success`, classification yields "available"
(`isNoCourtsAvailable` returns `false`) — the success marker is tested first
and wins over any failure markers also present. -/
theorem claim_C5_success_marker_wins (html : List Char)
    (h : hasSub html "alert-success".data = true) :
    isNoCourtsAvailable html = false := by
  unfold isNoCourtsAvailable
  rw [if_pos h]

/-- Witness for C5 at an HTML fragment containing both the success marker and
two failure markers. -/
theorem claim_C5_witness :
    hasSub "<div class=\"alert-success\">נסה מועד אחר alert-danger</div>".data
        "alert-success".data = true ∧
    isNoCourtsAvailable
        "<div class=\"alert-success\">נסה מועד אחר alert-danger</div>".data = false :=
  ⟨by decide, claim_C5_success_marker_wins _ (by decide)⟩

/-- **C4.** For every `AvailabilityResult` returned by the parser with status
"available", the `courts` field is the de-duplicated set of the slots'
`courtNumber`s in ascending numeric order: it is sorted, duplicate-free, and
has exactly the court numbers occurring in `slots`. -/
theorem claim_C4_courts_sorted_dedup (response : String) (r : AvailabilityResult)
    (hp : parseCourtAvailability response = Except.ok r)
    (hst : r.status = AvStatus.available) :
    List.Sorted (· ≤ ·) r.courts ∧ r.courts.Nodup ∧
      (∀ n, n ∈ r.courts ↔ n ∈ r.slots.map (fun s => s.courtNumber)) := by
  unfold parseCourtAvailability at hp
  split at hp
  · cases hp
    cases hst
  · split at hp
    · cases hp
    · split at hp
      · cases hp
        cases hst
      · cases hp
        refine ⟨sorted_sortAsc _, nodup_sortAsc _ (nodup_dedupFirst _), fun n => ?_⟩
        rw [mem_sortAsc, mem_dedupFirst]

/-- The end-to-end "available" example of the specification: one row, court 3,
court id 101, URI-encoded times. -/
def availExample : String :=
  "jQuery('#step-2').html('מגרש: 3 <a href=\"x?court_id=101&amp;duration=1.0&amp;end_time=09%3A00&amp;start_time=08%3A00\">book</a>');"

def availResult : AvailabilityResult :=
  ⟨AvStatus.available, [3], [⟨3, 101, "1.0", "09:00", "08:00"⟩], none⟩

/-- Witness for C4 at the end-to-end "available" example. -/
theorem claim_C4_witness :
    parseCourtAvailability availExample = Except.ok availResult ∧
    availResult.status = AvStatus.available ∧
    (List.Sorted (· ≤ ·) availResult.courts ∧ availResult.courts.Nodup ∧
      (∀ n, n ∈ availResult.courts ↔ n ∈ availResult.slots.map (fun s => s.courtNumber))) :=
  ⟨by rfl, by rfl, claim_C4_courts_sorted_dedup availExample availResult (by rfl) (by rfl)⟩

/-- **C6.** On the no-courts path the result carries exactly the de-duplicated
first-seen start times of the `HH:MM-HH:MM` headings, and the field is absent
(`none`, i.e. omitted from the JSON) rather than an empty list when no heading
is found; the suggested-times list never contains duplicates. -/
theorem claim_C6_suggested_times (response : String)
    (h : isNoCourtsAvailable (extractHtmlFromResponse response.data) = true) :
    parseCourtAvailability response =
      Except.ok ⟨AvStatus.noCourts, [], [],
        if (parseSuggestedTimes (extractHtmlFromResponse response.data)).isEmpty then none
        else some (parseSuggestedTimes (extractHtmlFromResponse response.data))⟩ ∧
    (parseSuggestedTimes (extractHtmlFromResponse response.data)).Nodup := by
  constructor
  · unfold parseCourtAvailability
    rw [if_pos h]
  · unfold parseSuggestedTimes
    refine List.Nodup.map (fun a b hab => ?_) (nodup_dedupFirst _)
    exact congrArg String.data hab

/-- The end-to-end no-courts example of the specification: a failure marker,
an alternative-time heading, no success marker. -/
def noCourtsExample : String :=
  "jQuery('#step-2').html('נסה מועד אחר <h3>10:00-11:00</h3>');"

/-- Witness for C6: the no-courts example parses to
`{status:"no-courts", courts:[], slots:[], suggestedTimes:["10:00"]}`. -/
theorem claim_C6_witness :
    isNoCourtsAvailable (extractHtmlFromResponse noCourtsExample.data) = true ∧
    parseCourtAvailability noCourtsExample =
      Except.ok ⟨AvStatus.noCourts, [], [], some ["10:00"]⟩ := by
  refine ⟨by decide, ?_⟩
  have h := (claim_C6_suggested_times noCourtsExample (by decide)).1
  rw [h]
  rfl

/-- **C3 (amended).** The parser never throws as long as the time fields of
every matched court row are well-formed percent-encodings (equivalently: as
long as the row scan itself does not raise `URIError`): an absent
jQuery-wrapper pattern degrades to the empty unwrapped string, a successful
row scan always produces a result, and a scan yielding zero slots with no
failure classification produces `{status:"no-courts", courts:[], slots:[]}`
with no `suggestedTimes` field. -/
theorem claim_C3_parser_totality (response : String) :
    (splitAtSub response.data jqOpen = none → extractHtmlFromResponse response.data = []) ∧
    (∀ slots, parseCourtSlots (extractHtmlFromResponse response.data) = Except.ok slots →
      ∃ r, parseCourtAvailability response = Except.ok r) ∧
    (isNoCourtsAvailable (extractHtmlFromResponse response.data) = false →
      parseCourtSlots (extractHtmlFromResponse response.data) = Except.ok [] →
      parseCourtAvailability response = Except.ok ⟨AvStatus.noCourts, [], [], none⟩) := by
  refine ⟨fun h => ?_, fun slots hs => ?_, fun hclass hs => ?_⟩
  · unfold extractHtmlFromResponse
    rw [h]
  · unfold parseCourtAvailability
    by_cases hclass : isNoCourtsAvailable (extractHtmlFromResponse response.data) = true
    · rw [if_pos hclass]
      exact ⟨_, rfl⟩
    · rw [if_neg hclass, hs]
      split
      · rename_i heq
        cases heq
      · rename_i slots' heq
        injection heq with h2
        subst h2
        split
        · exact ⟨_, rfl⟩
        · exact ⟨_, rfl⟩
  · unfold parseCourtAvailability
    rw [if_neg (by simp [hclass]), hs]
    rfl

/-- Witness for C3 (amended) at a response without the jQuery wrapper: the
unwrapped HTML is the empty string and the result is the no-courts record with
no `suggestedTimes` field. -/
theorem claim_C3_witness :
    extractHtmlFromResponse ("no wrapper at all" : String).data = [] ∧
    parseCourtAvailability "no wrapper at all" =
      Except.ok ⟨AvStatus.noCourts, [], [], none⟩ :=
  ⟨(claim_C3_parser_totality "no wrapper at all").1 (by decide),
   (claim_C3_parser_totality "no wrapper at all").2.2 (by decide) (by rfl)⟩

/-- A response whose single court row carries a malformed percent-escape in
its `end_time` field: `decodeURIComponent('%')` throws `URIError`. -/
def malformedExample : String :=
  "jQuery('#step-2').html('מגרש: 1 court_id=2&amp;duration=1&amp;end_time=%&amp;start_time=08:00\"');"

/-- Counterexample to C3 as stated: `parseCourtAvailability` is *not* total on
all input strings — on `malformedExample` the source throws `URIError`
(modelled as `Except.error "URI malformed"`) instead of returning a result. -/
theorem claim_C3_counterexample :
    parseCourtAvailability malformedExample = Except.error "URI malformed" := by
  rfl

/-! ## Claim about the client-side filter -/

/-- **C7.** In the half-hour suppression of `parseTimeSlots`, a `:30` slot is
kept exactly when the immediately following full hour (`nextHourOf`, i.e.
`String(parseInt(hours)+1).padStart(2,'0') + ':00'`) is *not* in the parsed
slot list — equivalently, it is dropped exactly when that `:00` slot is
present. -/
theorem claim_C7_half_hour_suppression (allSlots : List String) (slot : String)
    (h30 : strEndsWith slot ":30" = true)
    (h00 : strEndsWith slot ":00" = false) :
    slot ∈ filterHalfHour allSlots ↔
      slot ∈ allSlots ∧ allSlots.contains (nextHourOf slot) = false := by
  unfold filterHalfHour
  rw [List.mem_filter]
  unfold keepSlot
  rw [h00, h30]
  simp

/-- Witness for C7 at the two examples of the specification. -/
theorem claim_C7_witness :
    (("08:30" : String) ∈ filterHalfHour ["08:00", "08:30", "09:00"] ↔
      ("08:30" : String) ∈ ["08:00", "08:30", "09:00"] ∧
        (["08:00", "08:30", "09:00"] : List String).contains (nextHourOf "08:30") = false) ∧
    nextHourOf "08:30" = "09:00" ∧
    filterHalfHour ["08:00", "08:30", "09:00"] = ["08:00", "09:00"] ∧
    filterHalfHour ["08:00", "08:30"] = ["08:00", "08:30"] :=
  ⟨claim_C7_half_hour_suppression _ _ (by decide) (by decide),
   by decide, by decide, by decide⟩

/-! ## Supporting lemmas for the handlers -/

theorem notEmpty_of_ne (s : String) (h : s ≠ "") : s.isEmpty = false := by
  cases he : s.isEmpty
  · rfl
  · exact absurd ((String.isEmpty_iff s).mp he) h

def keysOf (m : List (String × SlotValue)) : List String := m.map Prod.fst

theorem lookupA_putAssoc (m : List (String × SlotValue)) (k : String) (v : SlotValue)
    (q : String) :
    lookupA (putAssoc m k v) q = if k = q then some v else lookupA m q := by
  induction m with
  | nil => rfl
  | cons p t ih =>
    obtain ⟨k1, v1⟩ := p
    simp only [putAssoc]
    by_cases h1 : k1 = k
    · subst h1
      rw [if_pos rfl]
      simp only [lookupA]
      by_cases hq : k1 = q <;> simp [hq]
    · rw [if_neg h1]
      simp only [lookupA]
      by_cases hq : k1 = q
      · subst hq
        rw [if_pos rfl, if_neg (fun hc => h1 hc.symm), if_pos rfl]
      · rw [if_neg hq, if_neg hq, ih]

theorem lookupA_buildResults (probe : String → ProbeOutcome) (l : List String)
    (m : List (String × SlotValue)) (q : String) :
    lookupA (buildResults probe l m) q =
      if q ∈ l then some (slotValueStreaming probe q) else lookupA m q := by
  induction l generalizing m with
  | nil => simp [buildResults]
  | cons t rest ih =>
    simp only [buildResults]
    rw [ih]
    by_cases hq : q ∈ rest
    · rw [if_pos hq, if_pos (List.mem_cons_of_mem _ hq)]
    · rw [if_neg hq, lookupA_putAssoc]
      by_cases ht : t = q
      · subst ht
        rw [if_pos rfl, if_pos (List.mem_cons_self _ _)]
      · rw [if_neg ht, if_neg (fun hc => by
          rcases List.mem_cons.mp hc with h | h
          · exact ht h.symm
          · exact hq h)]

theorem mem_keysOf_putAssoc (m : List (String × SlotValue)) (k : String) (v : SlotValue)
    (a : String) :
    a ∈ keysOf (putAssoc m k v) ↔ a ∈ keysOf m ∨ a = k := by
  induction m with
  | nil => simp [putAssoc, keysOf]
  | cons p t ih =>
    obtain ⟨k1, v1⟩ := p
    simp only [putAssoc]
    by_cases h1 : k1 = k
    · subst h1
      rw [if_pos rfl]
      simp only [keysOf, List.map_cons, List.mem_cons]
      tauto
    · rw [if_neg h1]
      simp only [keysOf, List.map_cons, List.mem_cons] at *
      rw [ih]
      tauto

theorem nodup_keysOf_putAssoc (m : List (String × SlotValue)) (k : String) (v : SlotValue)
    (h : (keysOf m).Nodup) : (keysOf (putAssoc m k v)).Nodup := by
  induction m with
  | nil => simp [putAssoc, keysOf]
  | cons p t ih =>
    obtain ⟨k1, v1⟩ := p
    simp only [keysOf, List.map_cons, List.nodup_cons] at h
    simp only [putAssoc]
    by_cases h1 : k1 = k
    · subst h1
      rw [if_pos rfl]
      simp only [keysOf, List.map_cons, List.nodup_cons]
      exact h
    · rw [if_neg h1]
      simp only [keysOf, List.map_cons, List.nodup_cons]
      refine ⟨fun hc => ?_, ih h.2⟩
      rcases (mem_keysOf_putAssoc t k v k1).mp hc with hm | he
      · exact h.1 hm
      · exact h1 he

theorem mem_keysOf_buildResults (probe : String → ProbeOutcome) (l : List String)
    (m : List (String × SlotValue)) (a : String) :
    a ∈ keysOf (buildResults probe l m) ↔ a ∈ l ∨ a ∈ keysOf m := by
  induction l generalizing m with
  | nil => simp [buildResults]
  | cons t rest ih =>
    simp only [buildResults]
    rw [ih, mem_keysOf_putAssoc]
    simp only [List.mem_cons]
    tauto

theorem nodup_keysOf_buildResults (probe : String → ProbeOutcome) (l : List String)
    (m : List (String × SlotValue)) (h : (keysOf m).Nodup) :
    (keysOf (buildResults probe l m)).Nodup := by
  induction l generalizing m with
  | nil => simpa [buildResults]
  | cons t rest ih =>
    simp only [buildResults]
    exact ih _ (nodup_keysOf_putAssoc _ _ _ h)

theorem chunksGo_flatten (k : Nat) (t : List α) :
    ∀ (acc : List α) (c : Nat), (chunksGo k t acc c).flatten = acc.reverse ++ t := by
  induction t with
  | nil => intro acc c; simp [chunksGo]
  | cons x t ih =>
    intro acc c
    match c with
    | 0 =>
      simp only [chunksGo, List.flatten_cons, ih]
      simp
    | c + 1 =>
      simp only [chunksGo, ih]
      simp

theorem chunksOf_flatten (k : Nat) (l : List α) : (chunksOf k l).flatten = l := by
  match l with
  | [] => rfl
  | x :: t =>
    simp [chunksOf, chunksGo_flatten]

/-- The final aggregated map of the streaming orchestration, characterized:
duplicate-free keys, exactly the requested slots as keys, and each requested
slot mapped to its per-slot outcome. -/
theorem buildResults_spec (probe : String → ProbeOutcome) (ts : List String) :
    (keysOf (buildResults probe ts [])).Nodup ∧
    (∀ k, k ∈ keysOf (buildResults probe ts []) ↔ k ∈ ts) ∧
    (∀ k, k ∈ ts → lookupA (buildResults probe ts []) k =
      some (slotValueStreaming probe k)) := by
  refine ⟨nodup_keysOf_buildResults _ _ _ (by simp [keysOf]), fun k => ?_, fun k hk => ?_⟩
  · rw [mem_keysOf_buildResults]
    simp [keysOf]
  · rw [lookupA_buildResults, if_pos hk]

/-! ## Claims about the gateway and the handlers -/

/-- **C8.** A POST body missing any of the five required fields is answered
with the 400 `Missing required parameters` response, with no cache lookup and
no upstream probe — in both the streaming and the legacy batch handler. -/
theorem claim_C8_missing_params (cacheCfg : Option (String → Option CachedPayload))
    (probe : String → ProbeOutcome) (body : SearchBody)
    (h : body.unitId = none ∨ body.date = none ∨ body.timeSlots = none ∨
         body.sessionId = none ∨ body.authenticityToken = none) :
    handleStreamingCourtSearch cacheCfg probe body =
      ⟨StreamResponse.badRequest missingParamsMsg, [], []⟩ ∧
    handleBatchCourtSearch cacheCfg probe body =
      ⟨BatchResponse.badRequest missingParamsMsg, [], [], none⟩ := by
  have hv : bodyValid body = false := by
    rcases h with h | h | h | h | h <;> simp [bodyValid, truthyStr, truthyArr, h]
  constructor
  · unfold handleStreamingCourtSearch
    rw [hv]
    rfl
  · unfold handleBatchCourtSearch
    rw [hv]
    rfl

def probeStub : String → ProbeOutcome := fun _ => ProbeOutcome.httpError 500

/-- Witness for C8 at a body missing `unitId`. -/
theorem claim_C8_witness :
    handleStreamingCourtSearch none probeStub
        ⟨none, some "04/12/2024", some ["08:00"], some "s", some "t"⟩ =
      ⟨StreamResponse.badRequest missingParamsMsg, [], []⟩ ∧
    handleBatchCourtSearch none probeStub
        ⟨none, some "04/12/2024", some ["08:00"], some "s", some "t"⟩ =
      ⟨BatchResponse.badRequest missingParamsMsg, [], [], none⟩ :=
  claim_C8_missing_params none probeStub _ (Or.inl rfl)

/-- **C9.** A non-OPTIONS request carrying an Origin value outside the
configured allow-set is answered 403 at the gateway with no upstream dispatch;
a request without an Origin header passes the origin check and proceeds to
dispatch. -/
theorem claim_C9_origin_policy (envAllowed : Option String) (req : GatewayRequest)
    (hm : req.method ≠ "OPTIONS") :
    (∀ o, req.origin = some o → o ≠ "" →
      o ∉ allowedOriginsOf envAllowed →
      routeRequest envAllowed req = RouteResult.forbiddenOrigin ∧
        issuesUpstreamDispatch (routeRequest envAllowed req) = false) ∧
    (req.origin = none →
      routeRequest envAllowed req =
        routeRequest.routeDispatch ((allowedOriginsOf envAllowed).headD "") req) := by
  constructor
  · intro o ho hne hc
    have hr : routeRequest envAllowed req = RouteResult.forbiddenOrigin := by
      simp [routeRequest, hm, ho, originTruthy, notEmpty_of_ne o hne, hc]
    exact ⟨hr, by rw [hr]; rfl⟩
  · intro ho
    simp [routeRequest, hm, ho, originTruthy]

def evilReq : GatewayRequest := ⟨"POST", some "https://evil.example", "/api/search-courts"⟩

/-- Witness for C9: `Origin: https://evil.example` against the default
allow-set is rejected with no upstream dispatch. -/
theorem claim_C9_witness :
    routeRequest none evilReq = RouteResult.forbiddenOrigin ∧
    issuesUpstreamDispatch (routeRequest none evilReq) = false :=
  (claim_C9_origin_policy none evilReq (by decide)).1
    "https://evil.example" rfl (by decide) (by decide)

theorem bodyValid_some (u d sid tok : String) (ts : List String)
    (hu : u ≠ "") (hd : d ≠ "") (hsid : sid ≠ "") (htok : tok ≠ "") :
    bodyValid ⟨some u, some d, some ts, some sid, some tok⟩ = true := by
  simp [bodyValid, truthyStr, truthyArr, notEmpty_of_ne u hu, notEmpty_of_ne d hd,
    notEmpty_of_ne sid hsid, notEmpty_of_ne tok htok]

/-- **C2 (amended).** A live cache entry under the key actually computed by
the handler — `courts:{venueId}:{date}` — short-circuits the orchestration:
the stored payload is returned with `cached: true` and zero upstream probes;
and every cache write of the streaming run goes to `courts:{venueId}:{date}`
with the 600-second TTL. -/
theorem claim_C2_cache_hit (c : String → Option CachedPayload)
    (probe : String → ProbeOutcome) (u d sid tok : String) (ts : List String)
    (payload : CachedPayload)
    (hu : u ≠ "") (hd : d ≠ "") (hsid : sid ≠ "") (htok : tok ≠ "")
    (hhit : c (cacheKeyOf u d) = some payload) :
    handleStreamingCourtSearch (some c) probe ⟨some u, some d, some ts, some sid, some tok⟩ =
      ⟨StreamResponse.cachedJson { payload with cached := true }, [cacheKeyOf u d], []⟩ ∧
    (∀ (hasC : Bool) (u2 d2 : String) (ts2 : List String),
      (runStreaming hasC probe u2 d2 ts2).cachePut =
        if hasC then
          some (cacheKeyOf u2 d2,
            ⟨u2, d2, (runStreaming hasC probe u2 d2 ts2).results, false⟩, 600)
        else none) := by
  refine ⟨?_, fun hasC u2 d2 ts2 => ?_⟩
  · have hv := bodyValid_some u d sid tok ts hu hd hsid htok
    simp [handleStreamingCourtSearch, hv, hhit]
  · cases hasC <;> simp [runStreaming, CACHE_TTL]

def demoPayload : CachedPayload :=
  ⟨"12", "04/12/2024", [("08:00", SlotValue.errorEntry "HTTP 500")], false⟩

/-- A cache holding an entry under the key format stated by the claim,
`"{venueId}:{date}"`, and nothing else. -/
def cacheClaimKey : String → Option CachedPayload :=
  fun k => if k = "12:04/12/2024" then some demoPayload else none

/-- A cache holding an entry under the key format computed by the code,
`"courts:{venueId}:{date}"`. -/
def cacheHitDemo : String → Option CachedPayload :=
  fun k => if k = "courts:12:04/12/2024" then some demoPayload else none

def bodyDemo : SearchBody :=
  ⟨some "12", some "04/12/2024", some ["08:00"], some "s", some "t"⟩

/-- Counterexample to C2 as stated: the cache key is *not*
`"{venueId}:{date}"` — the handler computes `"courts:12:04/12/2024"`, and a
cache pre-populated under `"12:04/12/2024"` does not short-circuit the
orchestration: the request still issues an upstream probe. -/
theorem claim_C2_counterexample :
    cacheKeyOf "12" "04/12/2024" = "courts:12:04/12/2024" ∧
    cacheKeyOf "12" "04/12/2024" ≠ "12:04/12/2024" ∧
    (handleStreamingCourtSearch (some cacheClaimKey) probeStub bodyDemo).upstreamCalls =
      ["08:00"] := by
  refine ⟨rfl, by decide, ?_⟩
  rfl

/-- Witness for C2 (amended) at a cache pre-populated under
`"courts:12:04/12/2024"`. -/
theorem claim_C2_witness :
    handleStreamingCourtSearch (some cacheHitDemo) probeStub bodyDemo =
      ⟨StreamResponse.cachedJson { demoPayload with cached := true },
       [cacheKeyOf "12" "04/12/2024"], []⟩ ∧
    (runStreaming true probeStub "12" "04/12/2024" ["08:00"]).cachePut =
      if true then
        some (cacheKeyOf "12" "04/12/2024",
          ⟨"12", "04/12/2024",
           (runStreaming true probeStub "12" "04/12/2024" ["08:00"]).results, false⟩, 600)
      else none :=
  ⟨(claim_C2_cache_hit cacheHitDemo probeStub "12" "04/12/2024" "s" "t" ["08:00"] demoPayload
      (by decide) (by decide) (by decide) (by decide) (by rfl)).1,
   (claim_C2_cache_hit cacheHitDemo probeStub "12" "04/12/2024" "s" "t" ["08:00"] demoPayload
      (by decide) (by decide) (by decide) (by decide) (by rfl)).2
     true "12" "04/12/2024" ["08:00"]⟩

/-- **C10.** A body with `timeSlots: []` passes the required-parameter check
(an empty array is truthy); on a cache miss the run issues zero upstream
probes, completes with an empty results map, and — with a cache backend
configured — writes that empty map under the request's key with the full
600-second TTL.  Both handlers behave this way. -/
theorem claim_C10_empty_timeslots (c : String → Option CachedPayload)
    (probe : String → ProbeOutcome) (u d sid tok : String)
    (hu : u ≠ "") (hd : d ≠ "") (hsid : sid ≠ "") (htok : tok ≠ "")
    (hmiss : c (cacheKeyOf u d) = none) :
    handleStreamingCourtSearch (some c) probe ⟨some u, some d, some [], some sid, some tok⟩ =
      ⟨StreamResponse.sse ⟨[SSEEvent.complete u d []], [],
        some (cacheKeyOf u d, ⟨u, d, [], false⟩, 600)⟩, [cacheKeyOf u d], []⟩ ∧
    handleBatchCourtSearch (some c) probe ⟨some u, some d, some [], some sid, some tok⟩ =
      ⟨BatchResponse.jsonOk ⟨u, d, [], false⟩, [cacheKeyOf u d], [],
        some (cacheKeyOf u d, ⟨u, d, [], false⟩, 600)⟩ := by
  have hv := bodyValid_some u d sid tok [] hu hd hsid htok
  constructor
  · simp [handleStreamingCourtSearch, hv, hmiss, runStreaming, chunksOf, buildResults,
      CACHE_TTL]
  · simp [handleBatchCourtSearch, hv, hmiss, runBatchLegacy, runBatchesLegacy, chunksOf,
      legacyCalls, CACHE_TTL]

def cacheEmptyDemo : String → Option CachedPayload := fun _ => none

/-- Witness for C10 at a concrete empty-`timeSlots` request. -/
theorem claim_C10_witness :
    handleStreamingCourtSearch (some cacheEmptyDemo) probeStub
        ⟨some "12", some "04/12/2024", some [], some "s", some "t"⟩ =
      ⟨StreamResponse.sse ⟨[SSEEvent.complete "12" "04/12/2024" []], [],
        some (cacheKeyOf "12" "04/12/2024", ⟨"12", "04/12/2024", [], false⟩, 600)⟩,
       [cacheKeyOf "12" "04/12/2024"], []⟩ ∧
    handleBatchCourtSearch (some cacheEmptyDemo) probeStub
        ⟨some "12", some "04/12/2024", some [], some "s", some "t"⟩ =
      ⟨BatchResponse.jsonOk ⟨"12", "04/12/2024", [], false⟩,
       [cacheKeyOf "12" "04/12/2024"], [],
       some (cacheKeyOf "12" "04/12/2024", ⟨"12", "04/12/2024", [], false⟩, 600)⟩ :=
  claim_C10_empty_timeslots cacheEmptyDemo probeStub "12" "04/12/2024" "s" "t"
    (by decide) (by decide) (by decide) (by decide) rfl

/-- **C1 (amended).** For every batch of time slots that reaches the streaming
handler's orchestration (valid body, cache miss), a per-slot failure —
rejected fetch (network error) or non-2xx upstream status — is recorded as an
`{status:"error", error: message}` entry for that slot only and never aborts
the batch: the final aggregated map has duplicate-free keys, its keys are
exactly the distinct requested time slots (none missing), and each requested
slot maps to its own outcome — a parsed `AvailabilityResult` for a 2xx
response that parses, an error placeholder otherwise.  (In the legacy
non-streaming handler this holds only for non-2xx statuses; a network error
aborts its run with a 500 — see the counterexample.) -/
theorem claim_C1_per_slot_errors (cacheCfg : Option (String → Option CachedPayload))
    (probe : String → ProbeOutcome) (u d sid tok : String) (ts : List String)
    (hu : u ≠ "") (hd : d ≠ "") (hsid : sid ≠ "") (htok : tok ≠ "")
    (hmiss : ∀ cch, cacheCfg = some cch → cch (cacheKeyOf u d) = none) :
    ∃ run : StreamRun,
      (handleStreamingCourtSearch cacheCfg probe
        ⟨some u, some d, some ts, some sid, some tok⟩).response =
          StreamResponse.sse run ∧
      (keysOf run.results).Nodup ∧
      (∀ k, k ∈ keysOf run.results ↔ k ∈ ts) ∧
      (∀ k, k ∈ ts → lookupA run.results k = some (slotValueStreaming probe k)) ∧
      (∀ k m, k ∈ ts → probe k = ProbeOutcome.netError m →
        lookupA run.results k = some (SlotValue.errorEntry m)) ∧
      (∀ k s, k ∈ ts → probe k = ProbeOutcome.httpError s →
        lookupA run.results k = some (SlotValue.errorEntry ("HTTP " ++ toString s))) ∧
      (∀ k txt r, k ∈ ts → probe k = ProbeOutcome.ok txt →
        parseCourtAvailability txt = Except.ok r →
        lookupA run.results k = some (SlotValue.parsed r)) := by
  have hv := bodyValid_some u d sid tok ts hu hd hsid htok
  have hbase : ∀ hasC : Bool,
      (runStreaming hasC probe u d ts).results = buildResults probe ts [] := by
    intro hasC
    simp [runStreaming, chunksOf_flatten]
  obtain ⟨run, hresp, hres⟩ :
      ∃ run, (handleStreamingCourtSearch cacheCfg probe
          ⟨some u, some d, some ts, some sid, some tok⟩).response =
            StreamResponse.sse run ∧
        run.results = buildResults probe ts [] := by
    cases cacheCfg with
    | none =>
      exact ⟨runStreaming false probe u d ts,
        by simp [handleStreamingCourtSearch, hv], hbase false⟩
    | some cch =>
      have hm := hmiss cch rfl
      exact ⟨runStreaming true probe u d ts,
        by simp [handleStreamingCourtSearch, hv, hm], hbase true⟩
  obtain ⟨hnd, hmem, hlook⟩ := buildResults_spec probe ts
  refine ⟨run, hresp, ?_, ?_, ?_, ?_, ?_, ?_⟩
  · rw [hres]; exact hnd
  · intro k; rw [hres]; exact hmem k
  · intro k hk; rw [hres]; exact hlook k hk
  · intro k m hk hpk
    rw [hres, hlook k hk]
    simp [slotValueStreaming, hpk]
  · intro k s hk hpk
    rw [hres, hlook k hk]
    simp [slotValueStreaming, hpk]
  · intro k txt r hk hpk hparse
    rw [hres, hlook k hk]
    simp [slotValueStreaming, hpk, hparse]

/-- A probe oracle with one rejected fetch and one non-2xx response. -/
def probeCex : String → ProbeOutcome := fun t =>
  if t = "08:00" then ProbeOutcome.netError "fetch failed" else ProbeOutcome.httpError 503

/-- Witness for C1 (amended): a two-slot batch against a probe oracle whose
first slot's fetch rejects and whose second returns 503. -/
theorem claim_C1_witness :
    ∃ run : StreamRun,
      (handleStreamingCourtSearch none probeCex
        ⟨some "12", some "04/12/2024", some ["08:00", "09:00"], some "s", some "t"⟩).response =
          StreamResponse.sse run ∧
      (keysOf run.results).Nodup ∧
      (∀ k, k ∈ keysOf run.results ↔ k ∈ ["08:00", "09:00"]) ∧
      (∀ k, k ∈ ["08:00", "09:00"] →
        lookupA run.results k = some (slotValueStreaming probeCex k)) ∧
      (∀ k m, k ∈ ["08:00", "09:00"] → probeCex k = ProbeOutcome.netError m →
        lookupA run.results k = some (SlotValue.errorEntry m)) ∧
      (∀ k s, k ∈ ["08:00", "09:00"] → probeCex k = ProbeOutcome.httpError s →
        lookupA run.results k = some (SlotValue.errorEntry ("HTTP " ++ toString s))) ∧
      (∀ k txt r, k ∈ ["08:00", "09:00"] → probeCex k = ProbeOutcome.ok txt →
        parseCourtAvailability txt = Except.ok r →
        lookupA run.results k = some (SlotValue.parsed r)) :=
  claim_C1_per_slot_errors none probeCex "12" "04/12/2024" "s" "t" ["08:00", "09:00"]
    (by decide) (by decide) (by decide) (by decide)
    (fun cch h => Option.noConfusion h)

/-- A probe oracle whose every fetch rejects with a network error. -/
def probeNetFail : String → ProbeOutcome := fun _ => ProbeOutcome.netError "fetch failed"

/-- Counterexample to C1 as stated for the legacy batch handler
(`handleBatchCourtSearch`): a network error on a single probe is *not*
recorded per-slot — it rejects the whole `Promise.all`, the outer `catch`
answers 500 `Batch search error`, and no results map is produced. -/
theorem claim_C1_counterexample :
    handleBatchCourtSearch none probeNetFail
        ⟨some "12", some "04/12/2024", some ["08:00"], some "s", some "t"⟩ =
      ⟨BatchResponse.serverError "Batch search error: fetch failed", [], ["08:00"], none⟩ := by
  rfl

end ITC
